import Mathlib

/-!
Verification of the shared-whiteboard conflict-resolution engine.

The definitions below are a shallow embedding of the TypeScript sources:
  * `frontend/src/types/whiteboard.ts` — the data model,
  * `frontend/src/utils/crdt.ts` — the `CRDTManager` class,
  * `frontend/src/services/websocket.ts` — the reconnect bookkeeping of
    `WebSocketService`.

Modelling conventions:
  * JavaScript numbers used as coordinates and timestamps are modelled as `Int`
    (all operations performed on them — subtraction, `Math.abs`, comparisons —
    are exact on integers).
  * The `Map` fields of `CRDTManager` are modelled extensionally as functions:
    `elements : String → Option WhiteboardElement` and, because the code reads
    the vector clock with `this.vector.get(userId) || 0` (a missing key reads
    as `0`), `vector : String → Nat`.
  * Optional TS fields (`startX?`, `path?`, `deleted?`) become `Option`/`Bool`:
    `undefined` is `none`, and `deleted?: boolean` read in boolean position is
    `false` when absent.
  * JavaScript string comparison `a > b` (code-unit lexicographic order) is
    embedded as `jsStrGt` over the character lists; `content.trim() !== ''` is
    embedded as `jsTrimNonEmpty` (the trimmed string is nonempty exactly when
    some character is not whitespace).
-/

/-- `Point` from `whiteboard.ts`: `{ x: number; y: number }`. -/
structure Point where
  x : Int
  y : Int
deriving DecidableEq, Repr

/-- `DrawingTool` from `whiteboard.ts`:
`'pen' | 'eraser' | 'rectangle' | 'circle' | 'line'`. -/
inductive DrawingTool where
  | pen
  | eraser
  | rectangle
  | circle
  | line
deriving DecidableEq, Repr

/-- `DrawingElementData` from `whiteboard.ts`. Optional fields are `Option`. -/
structure DrawingElementData where
  tool : DrawingTool
  color : String
  strokeWidth : Int
  startX : Option Int
  startY : Option Int
  endX : Option Int
  endY : Option Int
  path : Option (List Point)
  points : Option (List Point)
deriving DecidableEq, Repr

/-- `MarkdownElementData` from `whiteboard.ts`. -/
structure MarkdownElementData where
  content : String
  x : Int
  y : Int
  width : Int
  height : Int
deriving DecidableEq, Repr

/-- `WhiteboardElementData = DrawingElementData | MarkdownElementData`.
The constructor tag plays the role of the `type: 'drawing' | 'markdown'`
discriminant of `WhiteboardElement` (the code always casts `data` in agreement
with `type`, so the tagged union models the pair of fields). -/
inductive WhiteboardElementData where
  | drawing (d : DrawingElementData)
  | markdown (m : MarkdownElementData)
deriving DecidableEq, Repr

/-- `WhiteboardElement` from `whiteboard.ts`; `deleted?: boolean` is a `Bool`
(absent reads as `false`). -/
structure WhiteboardElement where
  id : String
  data : WhiteboardElementData
  timestamp : Int
  userId : String
  deleted : Bool
deriving DecidableEq, Repr

/-- JS code-unit lexicographic `<` on character lists (used by `a > b` on
strings). -/
def charListLt : List Char → List Char → Bool
  | [], [] => false
  | [], _ :: _ => true
  | _ :: _, [] => false
  | a :: as, b :: bs =>
    if a.val < b.val then true
    else if b.val < a.val then false
    else charListLt as bs

/-- JavaScript `a > b` on strings: lexicographic comparison of the character
sequences. -/
def jsStrGt (a b : String) : Bool := charListLt b.data a.data

/-- JavaScript `s.trim() !== ''`: true exactly when `s` contains a character
that is not whitespace. -/
def jsTrimNonEmpty (s : String) : Bool := s.data.any (fun c => !c.isWhitespace)

/-- `data.path || data.points || []` — JS `||` takes the first non-`undefined`
operand (an empty array is still truthy, so `some []` short-circuits). -/
def pathOrPoints (d : DrawingElementData) : List Point :=
  match d.path with
  | some p => p
  | none =>
    match d.points with
    | some p => p
    | none => []

/-- `path[0] || { x: 0, y: 0 }` — the first point of the payload, defaulting to
the origin when the path is empty (a point object is always truthy). -/
def firstPoint (d : DrawingElementData) : Point :=
  ((pathOrPoints d).head?).getD ⟨0, 0⟩

/-- `CRDTManager.isElementComplete` (crdt.ts).  For markdown the source also
checks `content !== undefined`, which is vacuous since `content: string` is a
required field. -/
def isElementComplete (element : WhiteboardElement) : Bool :=
  match element.data with
  | .drawing data =>
    match data.tool with
    | .pen | .eraser =>
      -- const path = data.path || data.points || []; return path.length > 2
      decide ((pathOrPoints data).length > 2)
    | .rectangle | .circle =>
      -- all four coordinates defined and |end - start| > 5 on each axis
      data.startX.isSome && data.startY.isSome &&
      data.endX.isSome && data.endY.isSome &&
      decide ((data.endX.getD 0 - data.startX.getD 0).natAbs > 5) &&
      decide ((data.endY.getD 0 - data.startY.getD 0).natAbs > 5)
    | .line =>
      data.startX.isSome && data.startY.isSome &&
      data.endX.isSome && data.endY.isSome
  | .markdown data => jsTrimNonEmpty data.content

/-- `CRDTManager.areConcurrent` (crdt.ts): timestamps within 500ms. -/
def areConcurrent (element1 element2 : WhiteboardElement) : Bool :=
  decide ((element1.timestamp - element2.timestamp).natAbs ≤ 500)

/-- First `if` block of `resolveConcurrentConflict` (crdt.ts lines 70–93):
both elements are drawings and the incoming tool is pen/eraser; `some b` is an
early `return b`, `none` falls through to the rest of the function. -/
def strokeBranch (newElement existingElement : WhiteboardElement) : Option Bool :=
  match newElement.data, existingElement.data with
  | .drawing newData, .drawing existingData =>
    if newData.tool == .pen || newData.tool == .eraser then
      if newElement.userId == existingElement.userId then
        some (decide (newElement.timestamp > existingElement.timestamp))
      else
        let newPos := firstPoint newData
        let existingPos := firstPoint existingData
        if (newPos.x - existingPos.x).natAbs < 10 &&
           (newPos.y - existingPos.y).natAbs < 10 then
          some (decide (newElement.timestamp > existingElement.timestamp))
        else
          some true
    else
      none
  | _, _ => none

/-- Second `if` block of `resolveConcurrentConflict` (crdt.ts lines 96–106):
the incoming element is a non-pen/eraser drawing and exactly one of the two
candidates is complete; `some b` is an early `return b`, `none` falls through
to the author tiebreak. -/
def completenessBranch (newElement existingElement : WhiteboardElement) : Option Bool :=
  match newElement.data with
  | .drawing newData =>
    if !(newData.tool == .pen) && !(newData.tool == .eraser) then
      let newComplete := isElementComplete newElement
      let existingComplete := isElementComplete existingElement
      if newComplete && !existingComplete then some true
      else if !newComplete && existingComplete then some false
      else none
    else
      none
  | _ => none

/-- `CRDTManager.resolveConcurrentConflict` (crdt.ts): the two early-return
blocks, then the deterministic `userId` tiebreak. -/
def resolveConcurrentConflict (newElement existingElement : WhiteboardElement) : Bool :=
  (strokeBranch newElement existingElement).getD
    ((completenessBranch newElement existingElement).getD
      (jsStrGt newElement.userId existingElement.userId))

/-- `CRDTManager.shouldApplyOperation` (crdt.ts). -/
def shouldApplyOperation (newElement existingElement : WhiteboardElement) : Bool :=
  let timeDiff := (newElement.timestamp - existingElement.timestamp).natAbs
  if timeDiff > 1000 then
    decide (newElement.timestamp > existingElement.timestamp)
  else if areConcurrent newElement existingElement then
    resolveConcurrentConflict newElement existingElement
  else if newElement.timestamp > existingElement.timestamp then
    true
  else if newElement.timestamp = existingElement.timestamp then
    jsStrGt newElement.userId existingElement.userId
  else
    false

/-- The `CRDTManager` state: `elements` and `vector` maps (extensional view,
see the header comment) plus the constructor-supplied `userId`. -/
structure CRDTManager where
  elements : String → Option WhiteboardElement
  userId : String
  vector : String → Nat

/-- `new CRDTManager(userId)`: empty element map, vector reading `0`
everywhere (the constructor stores an explicit `0` for `userId`; a missing key
also reads as `0` through `|| 0`). -/
def CRDTManager.init (userId : String) : CRDTManager :=
  ⟨fun _ => none, userId, fun _ => 0⟩

/-- `CRDTManager.updateVectorClock`: `vector.set(userId, (vector.get(userId) || 0) + 1)`. -/
def updateVectorClock (vector : String → Nat) (userId : String) : String → Nat :=
  fun u => if u = userId then vector userId + 1 else vector u

/-- `Map.set(id, element)` on the extensional map. -/
def mapSet (m : String → Option WhiteboardElement) (id : String)
    (element : WhiteboardElement) : String → Option WhiteboardElement :=
  fun k => if k = id then some element else m k

/-- `Map.delete(id)` on the extensional map. -/
def mapDelete (m : String → Option WhiteboardElement) (id : String) :
    String → Option WhiteboardElement :=
  fun k => if k = id then none else m k

/-- `CRDTManager.applyOperation` (crdt.ts lines 13–34).  Returns the new state
together with the boolean the method returns. -/
def CRDTManager.applyOperation (s : CRDTManager) (element : WhiteboardElement) :
    CRDTManager × Bool :=
  let existingElement := s.elements element.id
  if element.deleted then
    -- if (!existingElement || element.timestamp > existingElement.timestamp)
    match existingElement with
    | none =>
      (⟨mapDelete s.elements element.id, s.userId,
        updateVectorClock s.vector element.userId⟩, true)
    | some ex =>
      if element.timestamp > ex.timestamp then
        (⟨mapDelete s.elements element.id, s.userId,
          updateVectorClock s.vector element.userId⟩, true)
      else
        (s, false)
  else
    -- if (!existingElement || this.shouldApplyOperation(element, existingElement))
    match existingElement with
    | none =>
      (⟨mapSet s.elements element.id element, s.userId,
        updateVectorClock s.vector element.userId⟩, true)
    | some ex =>
      if shouldApplyOperation element ex then
        (⟨mapSet s.elements element.id element, s.userId,
          updateVectorClock s.vector element.userId⟩, true)
      else
        (s, false)

/-- `CRDTManager.deleteElement` (crdt.ts lines 149–151): unconditional
`elements.delete(elementId)`; the vector clock is not touched. -/
def CRDTManager.deleteElement (s : CRDTManager) (elementId : String) : CRDTManager :=
  ⟨mapDelete s.elements elementId, s.userId, s.vector⟩

/-- `CRDTManager.merge` (crdt.ts lines 166–170): replay every remote element
through `applyOperation` in list order. -/
def CRDTManager.merge (s : CRDTManager) (remoteElements : List WhiteboardElement) :
    CRDTManager :=
  remoteElements.foldl (fun st element => (st.applyOperation element).1) s

/-- `CRDTManager.clear` (crdt.ts lines 172–176): clears both maps and reseeds
the local author's counter to `0` (extensionally, the all-zero vector). -/
def CRDTManager.clear (s : CRDTManager) : CRDTManager :=
  ⟨fun _ => none, s.userId, fun _ => 0⟩

/-- `CRDTManager.getAllElements` (crdt.ts lines 162–164), parameterised by the
enumeration `values` of the element map: `values().filter(el => !el.deleted)`. -/
def getAllElements (values : List WhiteboardElement) : List WhiteboardElement :=
  values.filter (fun el => !el.deleted)

/-- States of one replica reachable from `new CRDTManager(userId)` by the
store-mutating methods `applyOperation`, `merge`, `deleteElement`, `clear`. -/
inductive Reachable : CRDTManager → Prop where
  | init (userId : String) : Reachable (CRDTManager.init userId)
  | applyOp {s : CRDTManager} (e : WhiteboardElement) :
      Reachable s → Reachable (s.applyOperation e).1
  | mergeOp {s : CRDTManager} (l : List WhiteboardElement) :
      Reachable s → Reachable (s.merge l)
  | deleteOp {s : CRDTManager} (id : String) :
      Reachable s → Reachable (s.deleteElement id)
  | clearOp {s : CRDTManager} : Reachable s → Reachable s.clear

/-- No element stored in the map carries `deleted = true`. -/
def NoDeletedStored (s : CRDTManager) : Prop :=
  ∀ id el, s.elements id = some el → el.deleted = false

/-- Reconnect bookkeeping of `WebSocketService` (websocket.ts): the fields
consulted and mutated by `attemptReconnect`, the `onopen` handler and
`switchRoom`. -/
structure WebSocketService where
  clientId : String
  roomId : String
  reconnectAttempts : Nat
  maxReconnectAttempts : Nat
  reconnectDelay : Nat

/-- `new WebSocketService(clientId, roomId)`: `reconnectAttempts = 0`,
`maxReconnectAttempts = 5`, `reconnectDelay = 1000`. -/
def WebSocketService.create (clientId roomId : String) : WebSocketService :=
  ⟨clientId, roomId, 0, 5, 1000⟩

/-- `WebSocketService.attemptReconnect` (websocket.ts lines 90–100), called
with the `roomId` captured at `connectToRoom` time.  When the guard
`reconnectAttempts < maxReconnectAttempts && roomId === this.roomId` holds, the
counter is incremented and `setTimeout` is armed with delay
`reconnectDelay * reconnectAttempts` (read after the increment); the result is
`some (delay, newState)`.  Otherwise nothing is scheduled (`none`). -/
def attemptReconnect (st : WebSocketService) (roomId : String) :
    Option (Nat × WebSocketService) :=
  if st.reconnectAttempts < st.maxReconnectAttempts ∧ roomId = st.roomId then
    some (st.reconnectDelay * (st.reconnectAttempts + 1),
      { st with reconnectAttempts := st.reconnectAttempts + 1 })
  else
    none

/-- The `socket.onopen` handler (websocket.ts line 47): `reconnectAttempts = 0`. -/
def handleOpen (st : WebSocketService) : WebSocketService :=
  { st with reconnectAttempts := 0 }

/-- `WebSocketService.switchRoom` (websocket.ts lines 83–88): adopt the new
room id and reset the attempt counter (the ensuing `connectToRoom` is not part
of the counter bookkeeping modelled here). -/
def switchRoom (st : WebSocketService) (newRoomId : String) : WebSocketService :=
  { st with roomId := newRoomId, reconnectAttempts := 0 }

/-! ## Concrete fixtures used to instantiate the theorems -/

/-- A pen payload holding the given path. -/
def penData (pts : List Point) : DrawingElementData :=
  ⟨.pen, "#ffffff", 2, none, none, none, none, some pts, none⟩

/-- A rectangle payload with the given (optional) endpoint coordinates. -/
def rectData (sx sy ex ey : Option Int) : DrawingElementData :=
  ⟨.rectangle, "#ffffff", 2, sx, sy, ex, ey, none, none⟩

/-- A markdown payload with the given content. -/
def mdData (content : String) : MarkdownElementData :=
  ⟨content, 0, 0, 300, 200⟩

/-- A one-element store whose map holds exactly `e` under `e.id`. -/
def singleStore (host : String) (e : WhiteboardElement) : CRDTManager :=
  ⟨fun k => if k = e.id then some e else none, host, fun _ => 0⟩

def alicePen : WhiteboardElement := ⟨"e1", .drawing (penData [⟨0, 0⟩]), 1000, "alice", false⟩

def bobPen : WhiteboardElement := ⟨"e1", .drawing (penData [⟨0, 0⟩]), 1000, "bob", false⟩

def alicePenFar : WhiteboardElement := ⟨"e2", .drawing (penData [⟨0, 0⟩]), 1000, "alice", false⟩

def bobPenFar : WhiteboardElement := ⟨"e2", .drawing (penData [⟨100, 100⟩]), 1000, "bob", false⟩

def aliceMdComplete : WhiteboardElement := ⟨"m2", .markdown (mdData "hello"), 1000, "alice", false⟩

def bobMdEmpty : WhiteboardElement := ⟨"m2", .markdown (mdData ""), 1000, "bob", false⟩

def aliceMd : WhiteboardElement := ⟨"m1", .markdown (mdData "hi"), 1000, "alice", false⟩

def bobMd : WhiteboardElement := ⟨"m1", .markdown (mdData "yo"), 1000, "bob", false⟩

def aliceRectComplete : WhiteboardElement :=
  ⟨"r1", .drawing (rectData (some 0) (some 0) (some 100) (some 100)), 1000, "alice", false⟩

def bobRectHalf : WhiteboardElement :=
  ⟨"r1", .drawing (rectData (some 10) (some 10) none none), 1200, "bob", false⟩

def storedMd : WhiteboardElement := ⟨"x1", .markdown (mdData "keep"), 1000, "alice", false⟩

def deleteHi : WhiteboardElement := ⟨"x1", .markdown (mdData "keep"), 2000, "bob", true⟩

def deleteLo : WhiteboardElement := ⟨"x1", .markdown (mdData "keep"), 500, "bob", true⟩

def deleteOnEmpty : WhiteboardElement := ⟨"d1", .markdown (mdData "z"), 1000, "carol", true⟩

def elA : WhiteboardElement := ⟨"a1", .markdown (mdData "A"), 1000, "alice", false⟩

def elB : WhiteboardElement := ⟨"b1", .markdown (mdData "B"), 1500, "bob", false⟩

/-- A store differing from `singleStore "h" storedMd` in counters, host and
entries under other ids, but agreeing on the entry under `"x1"`. -/
def otherStore : CRDTManager :=
  ⟨fun k => if k = "x1" then some storedMd else if k = "b1" then some elB else none,
    "h2", fun _ => 7⟩

/-! ## Structural lemmas about `applyOperation` -/

/-- The accept/reject decision of `applyOperation`, as a pure function of the
incoming element and the stored entry under its id (the two guards
`!existingElement || element.timestamp > existingElement.timestamp` and
`!existingElement || shouldApplyOperation(...)`). -/
def decideAccept (element : WhiteboardElement) (existing : Option WhiteboardElement) : Bool :=
  if element.deleted then
    match existing with
    | none => true
    | some ex => decide (element.timestamp > ex.timestamp)
  else
    match existing with
    | none => true
    | some ex => shouldApplyOperation element ex

theorem applyOperation_eq (s : CRDTManager) (e : WhiteboardElement) :
    s.applyOperation e =
      if decideAccept e (s.elements e.id) = true then
        ({ elements := if e.deleted then mapDelete s.elements e.id
                       else mapSet s.elements e.id e,
           userId := s.userId,
           vector := updateVectorClock s.vector e.userId }, true)
      else (s, false) := by
  unfold CRDTManager.applyOperation decideAccept
  cases hd : e.deleted <;> cases hex : s.elements e.id <;> simp [hd, hex]

theorem applyOperation_snd (s : CRDTManager) (e : WhiteboardElement) :
    (s.applyOperation e).2 = decideAccept e (s.elements e.id) := by
  rw [applyOperation_eq]
  by_cases h : decideAccept e (s.elements e.id) = true <;> simp_all

theorem applyOperation_userId (s : CRDTManager) (e : WhiteboardElement) :
    (s.applyOperation e).1.userId = s.userId := by
  rw [applyOperation_eq]
  by_cases h : decideAccept e (s.elements e.id) = true <;> simp [h]

theorem applyOperation_elements (s : CRDTManager) (e : WhiteboardElement) (k : String) :
    (s.applyOperation e).1.elements k =
      if decideAccept e (s.elements e.id) = true ∧ k = e.id then
        (if e.deleted then none else some e)
      else s.elements k := by
  rw [applyOperation_eq]
  by_cases hacc : decideAccept e (s.elements e.id) = true <;>
    by_cases hk : k = e.id <;> cases hd : e.deleted <;>
    simp [hacc, hk, hd, mapSet, mapDelete]

theorem applyOperation_vector (s : CRDTManager) (e : WhiteboardElement) (u : String) :
    (s.applyOperation e).1.vector u =
      if decideAccept e (s.elements e.id) = true ∧ u = e.userId then s.vector u + 1
      else s.vector u := by
  rw [applyOperation_eq]
  by_cases hacc : decideAccept e (s.elements e.id) = true <;>
    by_cases hu : u = e.userId <;>
    simp [hacc, hu, updateVectorClock]

theorem applyOperation_reject (s : CRDTManager) (e : WhiteboardElement)
    (h : (s.applyOperation e).2 = false) : (s.applyOperation e).1 = s := by
  rw [applyOperation_eq] at h ⊢
  by_cases hacc : decideAccept e (s.elements e.id) = true <;> simp_all

/-! ## Helper lemmas -/

theorem CRDTManager.extEq (s t : CRDTManager)
    (he : s.elements = t.elements) (hu : s.userId = t.userId)
    (hv : s.vector = t.vector) : s = t := by
  cases s
  cases t
  simp_all

theorem charListLt_irrefl (l : List Char) : charListLt l l = false := by
  induction l with
  | nil => rfl
  | cons a as ih => simp [charListLt, ih]

theorem jsStrGt_irrefl (s : String) : jsStrGt s s = false :=
  charListLt_irrefl s.data

/-- Within the 500ms window the decision is `resolveConcurrentConflict`. -/
theorem shouldApply_concurrent (n ex : WhiteboardElement)
    (h : (n.timestamp - ex.timestamp).natAbs ≤ 500) :
    shouldApplyOperation n ex = resolveConcurrentConflict n ex := by
  have h1 : ¬(n.timestamp - ex.timestamp).natAbs > 1000 := by omega
  unfold shouldApplyOperation areConcurrent
  simp [h1, h]

/-- Re-resolving an element against itself never accepts. -/
theorem resolve_self (e : WhiteboardElement) : resolveConcurrentConflict e e = false := by
  unfold resolveConcurrentConflict strokeBranch completenessBranch
  rcases e with ⟨id, data, ts, uid, del⟩
  cases data with
  | drawing d =>
    cases htool : d.tool <;> simp [htool, jsStrGt_irrefl]
  | markdown m => simp [jsStrGt_irrefl]

theorem shouldApply_self (e : WhiteboardElement) : shouldApplyOperation e e = false := by
  have h : (e.timestamp - e.timestamp).natAbs ≤ 500 := by simp
  rw [shouldApply_concurrent e e h]
  exact resolve_self e

/-- An accepted non-delete operation stores the incoming element under its id. -/
theorem applyOperation_accept_stores (s : CRDTManager) (e : WhiteboardElement)
    (hdel : e.deleted = false) (hacc : (s.applyOperation e).2 = true) :
    (s.applyOperation e).1.elements e.id = some e := by
  rw [applyOperation_snd] at hacc
  rw [applyOperation_elements]
  simp [hacc, hdel]

theorem NoDeletedStored_apply (s : CRDTManager) (e : WhiteboardElement)
    (h : NoDeletedStored s) : NoDeletedStored (s.applyOperation e).1 := by
  intro id el hel
  rw [applyOperation_elements] at hel
  split at hel
  · cases hd : e.deleted
    · rw [hd] at hel
      simp at hel
      subst hel
      exact hd
    · rw [hd] at hel
      simp at hel
  · exact h id el hel

theorem NoDeletedStored_merge (s : CRDTManager) (l : List WhiteboardElement)
    (h : NoDeletedStored s) : NoDeletedStored (s.merge l) := by
  induction l generalizing s with
  | nil => exact h
  | cons e rest ih =>
    exact ih (s.applyOperation e).1 (NoDeletedStored_apply s e h)

/-- The conflict resolution of an incoming markdown element skips both
kind-specific branches and is the bare author tiebreak. -/
theorem resolve_markdown_incoming (n ex : WhiteboardElement) (md : MarkdownElementData)
    (h : n.data = .markdown md) :
    resolveConcurrentConflict n ex = jsStrGt n.userId ex.userId := by
  unfold resolveConcurrentConflict strokeBranch completenessBranch
  cases hxd : ex.data <;> simp [h, hxd]

/-! ## Claims -/

/-- C1: an incoming element with `deleted = true` is accepted by
`applyOperation` (returning `true` and removing the id from the elements map)
iff no element is stored under that id or the incoming timestamp is strictly
greater than the stored one; on reject the whole state, in particular the
stored element, is unchanged. -/
theorem C1_delete_wins (s : CRDTManager) (e : WhiteboardElement)
    (hdel : e.deleted = true) :
    ((s.applyOperation e).2 = true ↔
      (s.elements e.id = none ∨
        ∃ ex, s.elements e.id = some ex ∧ ex.timestamp < e.timestamp)) ∧
    ((s.applyOperation e).2 = true → (s.applyOperation e).1.elements e.id = none) ∧
    ((s.applyOperation e).2 = false → (s.applyOperation e).1 = s) := by
  refine ⟨?_, ?_, applyOperation_reject s e⟩
  · rw [applyOperation_snd]
    unfold decideAccept
    rw [hdel]
    cases hex : s.elements e.id <;> simp
  · intro hacc
    rw [applyOperation_snd] at hacc
    rw [applyOperation_elements]
    simp [hacc, hdel]

/-- C1 witness: a delete stamped 2000 removes the element stored at 1000; a
delete stamped 500 is rejected and the store is unchanged. -/
theorem C1_delete_wins_witness :
    ((singleStore "h" storedMd).applyOperation deleteHi).2 = true ∧
    ((singleStore "h" storedMd).applyOperation deleteHi).1.elements "x1" = none ∧
    ((singleStore "h" storedMd).applyOperation deleteLo).2 = false ∧
    ((singleStore "h" storedMd).applyOperation deleteLo).1 = singleStore "h" storedMd := by
  have h1 := C1_delete_wins (singleStore "h" storedMd) deleteHi (by decide)
  have h2 := C1_delete_wins (singleStore "h" storedMd) deleteLo (by decide)
  have hacc : ((singleStore "h" storedMd).applyOperation deleteHi).2 = true :=
    h1.1.mpr (Or.inr ⟨storedMd, by decide, by decide⟩)
  exact ⟨hacc, h1.2.1 hacc, by decide, h2.2.2 (by decide)⟩

/-- C2 counterexample: two non-deleted pen strokes share id `"e1"`, have equal
timestamps, the stored one is authored by `"alice"`, the incoming one by
`"bob"`, yet the incoming (bob-authored) candidate is rejected — the
stroke-positional branch (first points both `(0,0)`, closer than 10 units)
decides by strict timestamp before the author tiebreak is ever reached. -/
theorem C2_counterexample :
    bobPen.userId = "bob" ∧ alicePen.userId = "alice" ∧
    bobPen.deleted = false ∧ alicePen.deleted = false ∧
    bobPen.id = alicePen.id ∧ bobPen.timestamp = alicePen.timestamp ∧
    ((singleStore "h" alicePen).applyOperation bobPen).2 = false := by
  decide

/-- C2 (amended): for pairs that reach the author tiebreak — in particular
whenever the incoming candidate is a markdown element — with equal timestamps
and authors `"alice"`/`"bob"` in either role, the incoming candidate is
accepted iff its author is `"bob"`. -/
theorem C2_author_tiebreak (s : CRDTManager) (inc ex : WhiteboardElement)
    (md : MarkdownElementData) (hmd : inc.data = .markdown md)
    (hdel : inc.deleted = false)
    (hts : inc.timestamp = ex.timestamp)
    (hstore : s.elements inc.id = some ex)
    (hauth : (inc.userId = "bob" ∧ ex.userId = "alice") ∨
             (inc.userId = "alice" ∧ ex.userId = "bob")) :
    ((s.applyOperation inc).2 = true ↔ inc.userId = "bob") := by
  rw [applyOperation_snd, hstore]
  unfold decideAccept
  rw [hdel]
  have hgap : (inc.timestamp - ex.timestamp).natAbs ≤ 500 := by
    rw [hts]
    simp
  simp only [Bool.false_eq_true, if_false]
  rw [shouldApply_concurrent inc ex hgap, resolve_markdown_incoming inc ex md hmd]
  rcases hauth with ⟨hi, he⟩ | ⟨hi, he⟩ <;> rw [hi, he] <;> decide

/-- C2 witness: equal-timestamp markdown candidates; incoming bob over stored
alice is accepted, incoming alice over stored bob is rejected. -/
theorem C2_author_tiebreak_witness :
    ((singleStore "h" aliceMd).applyOperation bobMd).2 = true ∧
    ((singleStore "h" bobMd).applyOperation aliceMd).2 = false := by
  have h1 := C2_author_tiebreak (singleStore "h" aliceMd) bobMd aliceMd
    (mdData "yo") rfl rfl rfl (by decide) (Or.inl ⟨rfl, rfl⟩)
  have h2 := C2_author_tiebreak (singleStore "h" bobMd) aliceMd bobMd
    (mdData "hi") rfl rfl rfl (by decide) (Or.inr ⟨rfl, rfl⟩)
  refine ⟨h1.mpr rfl, ?_⟩
  cases hb : ((singleStore "h" bobMd).applyOperation aliceMd).2
  · rfl
  · exact absurd (h2.mp hb) (by decide)

/-- C3 counterexample: with a text (markdown) incoming candidate the
completeness override does not apply.  Stored: a complete markdown element
(content `"hello"`) by `"alice"`; incoming: an incomplete one (empty content)
by `"bob"`, same id, equal timestamps (gap 0 ≤ 500ms).  Exactly one of the two
is complete, yet the incomplete incoming candidate is accepted through the
author tiebreak — the complete one does not win. -/
theorem C3_counterexample :
    (bobMdEmpty.timestamp - aliceMdComplete.timestamp).natAbs ≤ 500 ∧
    bobMdEmpty.id = aliceMdComplete.id ∧
    bobMdEmpty.deleted = false ∧
    isElementComplete aliceMdComplete = true ∧
    isElementComplete bobMdEmpty = false ∧
    ((singleStore "h" aliceMdComplete).applyOperation bobMdEmpty).2 = true := by
  decide

/-- C3 (amended): within the 500ms window, for an incoming non-stroke drawn
shape (a drawing whose tool is not pen/eraser — the override does not cover
incoming text elements): if exactly one of incoming and existing satisfies the
completeness predicate, the complete one wins regardless of timestamp order —
the decision equals `isElementComplete inc`, an accepted incoming replaces the
stored element, and a rejected one leaves the state unchanged. -/
theorem C3_completeness_override (s : CRDTManager) (inc ex : WhiteboardElement)
    (nd : DrawingElementData) (hd : inc.data = .drawing nd)
    (hpen : nd.tool ≠ .pen) (heras : nd.tool ≠ .eraser)
    (hdel : inc.deleted = false)
    (hgap : (inc.timestamp - ex.timestamp).natAbs ≤ 500)
    (hstore : s.elements inc.id = some ex)
    (hone : isElementComplete inc ≠ isElementComplete ex) :
    (s.applyOperation inc).2 = isElementComplete inc ∧
    ((s.applyOperation inc).2 = true →
      (s.applyOperation inc).1.elements inc.id = some inc) ∧
    ((s.applyOperation inc).2 = false → (s.applyOperation inc).1 = s) := by
  refine ⟨?_, fun hacc => applyOperation_accept_stores s inc hdel hacc,
    applyOperation_reject s inc⟩
  rw [applyOperation_snd, hstore]
  unfold decideAccept
  rw [hdel]
  simp only [Bool.false_eq_true, if_false]
  rw [shouldApply_concurrent inc ex hgap]
  unfold resolveConcurrentConflict strokeBranch completenessBranch
  cases hxd : ex.data <;>
    cases hinc : isElementComplete inc <;> cases hex2 : isElementComplete ex <;>
    simp_all [hd]

/-- C3 witness: an incoming rectangle with only start coordinates set,
timestamped 200ms after a stored complete rectangle with the same id, is
rejected and does not replace it. -/
theorem C3_completeness_override_witness :
    (bobRectHalf.timestamp - aliceRectComplete.timestamp).natAbs ≤ 500 ∧
    ((singleStore "h" aliceRectComplete).applyOperation bobRectHalf).2 = false ∧
    ((singleStore "h" aliceRectComplete).applyOperation bobRectHalf).1 =
      singleStore "h" aliceRectComplete := by
  have h := C3_completeness_override (singleStore "h" aliceRectComplete)
    bobRectHalf aliceRectComplete (rectData (some 10) (some 10) none none)
    rfl (by decide) (by decide) rfl (by decide) (by decide) (by decide)
  have hacc : ((singleStore "h" aliceRectComplete).applyOperation bobRectHalf).2 = false := by
    rw [h.1]
    decide
  exact ⟨by decide, hacc, h.2.2 hacc⟩

/-- C4: within the 500ms window, for two pen/eraser drawing candidates sharing
an id but authored by different users: if the first recorded points of the two
payloads differ by strictly less than 10 units on both axes, the incoming
candidate is accepted iff its timestamp is strictly greater; otherwise it is
always accepted, and acceptance replaces the stored element under the id. -/
theorem C4_stroke_conflict (s : CRDTManager) (inc ex : WhiteboardElement)
    (nd ed : DrawingElementData)
    (hnd : inc.data = .drawing nd) (hed : ex.data = .drawing ed)
    (hntool : nd.tool = .pen ∨ nd.tool = .eraser)
    (hetool : ed.tool = .pen ∨ ed.tool = .eraser)
    (hdel : inc.deleted = false)
    (husers : inc.userId ≠ ex.userId)
    (hgap : (inc.timestamp - ex.timestamp).natAbs ≤ 500)
    (hstore : s.elements inc.id = some ex) :
    ((((firstPoint nd).x - (firstPoint ed).x).natAbs < 10 ∧
        ((firstPoint nd).y - (firstPoint ed).y).natAbs < 10) →
      (s.applyOperation inc).2 = decide (inc.timestamp > ex.timestamp)) ∧
    (¬(((firstPoint nd).x - (firstPoint ed).x).natAbs < 10 ∧
        ((firstPoint nd).y - (firstPoint ed).y).natAbs < 10) →
      (s.applyOperation inc).2 = true) ∧
    ((s.applyOperation inc).2 = true →
      (s.applyOperation inc).1.elements inc.id = some inc) := by
  have hres : (s.applyOperation inc).2 = resolveConcurrentConflict inc ex := by
    rw [applyOperation_snd, hstore]
    unfold decideAccept
    rw [hdel]
    simp only [Bool.false_eq_true, if_false]
    exact shouldApply_concurrent inc ex hgap
  have h1 : (nd.tool == DrawingTool.pen || nd.tool == DrawingTool.eraser) = true := by
    rcases hntool with ht | ht <;> rw [ht] <;> rfl
  have h2 : (inc.userId == ex.userId) = false := by
    simp [husers]
  have hrv : resolveConcurrentConflict inc ex =
      (if (decide (((firstPoint nd).x - (firstPoint ed).x).natAbs < 10) &&
           decide (((firstPoint nd).y - (firstPoint ed).y).natAbs < 10)) = true
       then decide (inc.timestamp > ex.timestamp) else true) := by
    unfold resolveConcurrentConflict strokeBranch
    simp [hnd, hed, h1, h2]
    by_cases hc : ((firstPoint nd).x - (firstPoint ed).x).natAbs < 10 ∧
        ((firstPoint nd).y - (firstPoint ed).y).natAbs < 10
    · rw [if_pos hc]
      simp [hc.1, hc.2]
    · rw [if_neg hc]
      rcases not_and_or.mp hc with h | h <;> simp [h]
  refine ⟨?_, ?_, fun hacc => applyOperation_accept_stores s inc hdel hacc⟩
  · intro hclose
    rw [hres, hrv, if_pos (by simp [hclose.1, hclose.2])]
  · intro hfar
    rw [hres, hrv, if_neg (by simpa using hfar)]

/-- C4 witness: two equal-timestamp pen strokes by different authors whose
first points are 100 units apart — the incoming one is accepted despite the
non-greater timestamp, and it replaces the stored element. -/
theorem C4_stroke_conflict_witness :
    ((singleStore "h" alicePenFar).applyOperation bobPenFar).2 = true ∧
    ((singleStore "h" alicePenFar).applyOperation bobPenFar).1.elements "e2" =
      some bobPenFar := by
  have h := C4_stroke_conflict (singleStore "h" alicePenFar) bobPenFar alicePenFar
    (penData [⟨100, 100⟩]) (penData [⟨0, 0⟩]) rfl rfl (Or.inl rfl) (Or.inl rfl)
    rfl (by decide) (by decide) (by decide)
  have hacc := h.2.1 (by decide)
  exact ⟨hacc, h.2.2 hacc⟩

/-- C5 counterexample: an accepted delete operation is not idempotent on the
whole Store.  Applying `deleteOnEmpty` (a `deleted = true` element) to the
fresh store accepts; re-applying it immediately accepts again (the id is
absent) and increments the author's counter a second time, so the state after
two applications differs from the state after one. -/
theorem C5_counterexample :
    ((CRDTManager.init "h").applyOperation deleteOnEmpty).2 = true ∧
    (((CRDTManager.init "h").applyOperation deleteOnEmpty).1.applyOperation
        deleteOnEmpty).1 ≠
      ((CRDTManager.init "h").applyOperation deleteOnEmpty).1 := by
  refine ⟨by decide, fun hcontra => ?_⟩
  exact absurd (congrArg (fun st => st.vector "carol") hcontra) (by decide)

/-- C5 (amended): applying the same accepted non-delete operation twice leaves
the Store (elements map and counters) identical to applying it once; for an
accepted delete the second application is accepted again and increments the
author's counter once more, so full idempotence holds only for non-delete
operations. -/
theorem C5_idempotent_nondelete (s : CRDTManager) (e : WhiteboardElement)
    (hdel : e.deleted = false) (hacc : (s.applyOperation e).2 = true) :
    ((s.applyOperation e).1.applyOperation e).1 = (s.applyOperation e).1 := by
  apply applyOperation_reject
  rw [applyOperation_snd, applyOperation_accept_stores s e hdel hacc]
  unfold decideAccept
  rw [hdel]
  simp [shouldApply_self]

/-- C5 witness: a concrete accepted markdown insert, applied twice, yields the
same state as applied once. -/
theorem C5_idempotent_nondelete_witness :
    (((CRDTManager.init "h").applyOperation aliceMd).1.applyOperation aliceMd).1 =
      ((CRDTManager.init "h").applyOperation aliceMd).1 :=
  C5_idempotent_nondelete (CRDTManager.init "h") aliceMd (by decide) (by decide)

/-- C6: for elements with distinct ids, applying A then B through
`applyOperation` yields the same final Store state (elements map, author id
and counters) as applying B then A. -/
theorem C6_distinct_id_commutes (s : CRDTManager) (A B : WhiteboardElement)
    (h : A.id ≠ B.id) :
    ((s.applyOperation A).1.applyOperation B).1 =
      ((s.applyOperation B).1.applyOperation A).1 := by
  apply CRDTManager.extEq
  · funext k
    simp only [applyOperation_elements]
    by_cases hkA : k = A.id <;> by_cases hkB : k = B.id
    · exact absurd (hkA.symm.trans hkB) h
    · simp [hkA, hkB, h, Ne.symm h]
    · simp [hkA, hkB, h, Ne.symm h]
    · simp [hkA, hkB, h, Ne.symm h]
  · rw [applyOperation_userId, applyOperation_userId,
      applyOperation_userId, applyOperation_userId]
  · funext u
    simp only [applyOperation_vector, applyOperation_elements]
    simp only [h, Ne.symm h, and_false, if_false]
    by_cases ha : decideAccept A (s.elements A.id) = true <;>
      by_cases hb : decideAccept B (s.elements B.id) = true <;>
      by_cases hua : u = A.userId <;> by_cases hub : u = B.userId <;>
      simp [ha, hb, hua, hub] <;> split <;> simp_all

/-- C6 witness: two concrete markdown inserts with distinct ids commute. -/
theorem C6_distinct_id_commutes_witness :
    (((CRDTManager.init "h").applyOperation elA).1.applyOperation elB).1 =
      (((CRDTManager.init "h").applyOperation elB).1.applyOperation elA).1 :=
  C6_distinct_id_commutes (CRDTManager.init "h") elA elB (by decide)

/-- C7: `deleteElement` removes the id from the elements map unconditionally —
for every prior state the entry under the id becomes `none`, every other entry
is untouched, and the per-author counters and local author id are unchanged
(by construction no timestamp comparison or resolver call occurs: the result
is independent of any timestamp). -/
theorem C7_deleteElement_unconditional (s : CRDTManager) (elementId k : String) :
    (s.deleteElement elementId).elements elementId = none ∧
    (s.deleteElement elementId).elements k =
      (if k = elementId then none else s.elements k) ∧
    (s.deleteElement elementId).vector = s.vector ∧
    (s.deleteElement elementId).userId = s.userId := by
  refine ⟨?_, rfl, rfl, rfl⟩
  show (if elementId = elementId then none else s.elements elementId) = none
  rw [if_pos rfl]

/-- C8: the accept/reject outcome of `applyOperation e` depends only on `e`
and the stored entry under `e.id`: two states agreeing there (but differing in
counters, author, and other entries) give the same decision. -/
theorem C8_decision_depends_only_on_entry (s1 s2 : CRDTManager)
    (e : WhiteboardElement) (h : s1.elements e.id = s2.elements e.id) :
    (s1.applyOperation e).2 = (s2.applyOperation e).2 := by
  rw [applyOperation_snd, applyOperation_snd, h]

/-- C8 witness: `singleStore "h" storedMd` and `otherStore` agree under
`"x1"` but differ in counters, local author and the entry under `"b1"`; the
decision for `deleteHi` is the same in both. -/
theorem C8_decision_depends_only_on_entry_witness :
    ((singleStore "h" storedMd).applyOperation deleteHi).2 =
      (otherStore.applyOperation deleteHi).2 :=
  C8_decision_depends_only_on_entry (singleStore "h" storedMd) otherStore
    deleteHi (by decide)

/-- C9: with the constructor-configured cap 5 and base delay 1000ms, the
`setTimeout` delay scheduled by the n-th consecutive `attemptReconnect` (the
counter reads n−1 just before the call) is n × 1000ms for n = 1..5; once the
counter has reached 5 no further attempt is scheduled for any room, and the
counter is reset to 0 by a successful `onopen` and by `switchRoom`. -/
theorem C9_reconnect_backoff (st : WebSocketService)
    (hmax : st.maxReconnectAttempts = 5) (hdelay : st.reconnectDelay = 1000) :
    (st.reconnectAttempts < 5 →
      attemptReconnect st st.roomId =
        some ((st.reconnectAttempts + 1) * 1000,
          { st with reconnectAttempts := st.reconnectAttempts + 1 })) ∧
    (5 ≤ st.reconnectAttempts → ∀ room, attemptReconnect st room = none) ∧
    (handleOpen st).reconnectAttempts = 0 ∧
    (∀ newRoomId, (switchRoom st newRoomId).reconnectAttempts = 0) := by
  refine ⟨?_, ?_, rfl, fun _ => rfl⟩
  · intro hn
    unfold attemptReconnect
    rw [hmax, hdelay]
    rw [if_pos ⟨hn, rfl⟩]
    rw [Nat.mul_comm]
  · intro hn room
    unfold attemptReconnect
    rw [hmax]
    rw [if_neg (fun hcon => absurd hcon.1 (by omega))]

/-- C9 witness: from a fresh service the first attempt is scheduled at 1000ms;
with the counter at 5 nothing is scheduled; `handleOpen` and `switchRoom`
reset the counter. -/
theorem C9_reconnect_backoff_witness :
    attemptReconnect (WebSocketService.create "c" "r") "r" =
      some (1 * 1000,
        { WebSocketService.create "c" "r" with reconnectAttempts := 1 }) ∧
    attemptReconnect
      { WebSocketService.create "c" "r" with reconnectAttempts := 5 } "r" = none ∧
    (handleOpen
      { WebSocketService.create "c" "r" with reconnectAttempts := 3 }).reconnectAttempts = 0 ∧
    (switchRoom
      { WebSocketService.create "c" "r" with reconnectAttempts := 5 } "r2").reconnectAttempts = 0 := by
  have h1 := C9_reconnect_backoff (WebSocketService.create "c" "r") rfl rfl
  have h2 := C9_reconnect_backoff
    { WebSocketService.create "c" "r" with reconnectAttempts := 5 } rfl rfl
  have h3 := C9_reconnect_backoff
    { WebSocketService.create "c" "r" with reconnectAttempts := 3 } rfl rfl
  exact ⟨h1.1 (by decide), h2.2.1 (by decide) "r", h3.2.2.1, h2.2.2.2 "r2"⟩

/-- C10: in every state reachable from the initial one by `applyOperation`,
`merge`, `deleteElement` and `clear`, no stored element has `deleted = true`,
and consequently `getAllElements` (which filters deleted entries) keeps every
list of elements drawn from the map unchanged. -/
theorem C10_no_deleted_stored (s : CRDTManager) (hs : Reachable s) :
    NoDeletedStored s ∧
    (∀ l : List WhiteboardElement,
      (∀ el ∈ l, ∃ id, s.elements id = some el) → getAllElements l = l) := by
  have hinv : NoDeletedStored s := by
    induction hs with
    | init u =>
      intro i el hel
      simp [CRDTManager.init] at hel
    | applyOp e _ ih => exact NoDeletedStored_apply _ e ih
    | mergeOp l _ ih => exact NoDeletedStored_merge _ l ih
    | deleteOp i _ ih =>
      intro j el hel
      unfold CRDTManager.deleteElement mapDelete at hel
      dsimp only at hel
      by_cases hj : j = i
      · rw [if_pos hj] at hel
        exact absurd hel (by simp)
      · rw [if_neg hj] at hel
        exact ih j el hel
    | clearOp ih =>
      intro i el hel
      simp [CRDTManager.clear] at hel
  refine ⟨hinv, fun l hl => ?_⟩
  unfold getAllElements
  rw [List.filter_eq_self]
  intro el hel
  obtain ⟨i, hi⟩ := hl el hel
  simp [hinv i el hi]

/-- C10 witness: after one accepted insert on a fresh store, the stored list
`[elA]` passes the deleted-filter unchanged. -/
theorem C10_no_deleted_stored_witness :
    getAllElements [elA] = [elA] := by
  have h := C10_no_deleted_stored ((CRDTManager.init "h").applyOperation elA).1
    (Reachable.applyOp elA (Reachable.init "h"))
  refine h.2 [elA] ?_
  intro el hel
  rw [List.mem_singleton] at hel
  subst hel
  exact ⟨"a1", by decide⟩
